import Mathlib

/-!
# Verification of the spreadsheet Cleaner and Annotator scripts

A shallow embedding of the two batch scripts of this repository:

* `clean_sort_data.py` — the **Cleaner**: deduplicate a table, drop rows
  containing the substring `"Total"`, fill blank cells with `"Unknown"`,
  append six derived columns, and sort by a six-key composite key;
* `address_geocode_script.py` — the **Annotator**: look up an address
  suggestion for the first row only, route every other row unmodified into
  an "unprocessed" output, and attempt both output saves independently.

Cells are `Option String` (`none` models a blank / `NaN` cell), a table is
a `List Record` in row order, and the external geocoding response is an
explicit inductive datatype mirroring the JSON shape the script inspects.
-/

/-- A spreadsheet cell: `none` is a blank / missing value (`NaN`),
`some s` is the cell's content rendered as text. -/
abbrev Cell := Option String

/-- One spreadsheet row.  The first four fields are the named input columns
the scripts access (`Country Name`, `Region`, `Education Institute`,
`Field of Study`); `extra` holds any further columns.  The last six fields
are the derived columns the Cleaner assigns (`continent`, `country`,
`region`, `state`, `education institution`, `field of study`); they default
to `none`, modelling an input table in which those columns are absent. -/
structure Record where
  countryName : Cell
  region : Cell
  educationInstitute : Cell
  fieldOfStudy : Cell
  extra : List Cell := []
  continent : Cell := none
  country : Cell := none
  regionDerived : Cell := none
  state : Cell := none
  educationInstitution : Cell := none
  fieldOfStudyDerived : Cell := none
deriving DecidableEq

/-- All cells of a row, in a fixed column order. -/
def Record.cells (r : Record) : List Cell :=
  r.countryName :: r.region :: r.educationInstitute :: r.fieldOfStudy ::
    r.continent :: r.country :: r.regionDerived :: r.state ::
    r.educationInstitution :: r.fieldOfStudyDerived :: r.extra

/-! ## Substring test: `row.astype(str).str.contains('Total')` -/

/-- `hasPrefixL pat l` — `pat` is a prefix of `l` (character lists). -/
def hasPrefixL : List Char → List Char → Bool
  | [], _ => true
  | _ :: _, [] => false
  | a :: as, b :: bs => a == b && hasPrefixL as bs

/-- `hasInfixL pat l` — `pat` occurs contiguously somewhere in `l`. -/
def hasInfixL (pat : List Char) : List Char → Bool
  | [] => pat.isEmpty
  | l@(_ :: rest) => hasPrefixL pat l || hasInfixL pat rest

/-- `containsTotal s` — the string `s` contains the (case-sensitive)
substring `"Total"`, as tested by `str.contains('Total')`. -/
def containsTotal (s : String) : Bool := hasInfixL "Total".data s.data

/-- A blank cell stringifies to `"nan"` under `astype(str)`, which does not
contain `"Total"`; a filled cell is tested directly. -/
def cellHasTotal : Cell → Bool
  | none => false
  | some s => containsTotal s

/-- `row.astype(str).str.contains('Total').any()` over all columns. -/
def recordHasTotal (r : Record) : Bool := r.cells.any cellHasTotal

/-! ## `df.drop_duplicates(inplace=True)` — keep the first occurrence -/

/-- Helper for `drop_duplicates`: drop any row equal to one already seen. -/
def dedupAux (seen : List Record) : List Record → List Record
  | [] => []
  | r :: rs => if r ∈ seen then dedupAux seen rs else r :: dedupAux (r :: seen) rs

/-- Pandas `drop_duplicates`: keep the first occurrence of each distinct
row, in order. -/
def drop_duplicates (t : List Record) : List Record := dedupAux [] t

/-! ## `df.fillna('Unknown', inplace=True)` -/

/-- Fill one cell: a blank becomes the literal placeholder `"Unknown"`. -/
def fillCell (c : Cell) : Cell := some (c.getD "Unknown")

/-- Fill every cell of a row. -/
def fillna (r : Record) : Record where
  countryName := fillCell r.countryName
  region := fillCell r.region
  educationInstitute := fillCell r.educationInstitute
  fieldOfStudy := fillCell r.fieldOfStudy
  extra := r.extra.map fillCell
  continent := fillCell r.continent
  country := fillCell r.country
  regionDerived := fillCell r.regionDerived
  state := fillCell r.state
  educationInstitution := fillCell r.educationInstitution
  fieldOfStudyDerived := fillCell r.fieldOfStudyDerived

/-! ## The six derived-column assignments -/

/-- `df['continent'] = 'Unknown'; df['country'] = df['Country Name']; ...`:
two placeholders and four verbatim copies, overwriting any prior values of
the six derived columns. -/
def createColumns (r : Record) : Record :=
  { r with
    continent := some "Unknown"
    country := r.countryName
    regionDerived := r.region
    state := some "Unknown"
    educationInstitution := r.educationInstitute
    fieldOfStudyDerived := r.fieldOfStudy }

/-! ## String comparison and the six-key sort -/

/-- Strict lexicographic comparison of character lists, by code point. -/
def chListLt : List Char → List Char → Bool
  | [], [] => false
  | [], _ :: _ => true
  | _ :: _, [] => false
  | a :: as, b :: bs =>
    if a.toNat < b.toNat then true
    else if b.toNat < a.toNat then false
    else chListLt as bs

/-- Strict lexicographic comparison of strings, by code point. -/
def strLtB (a b : String) : Bool := chListLt a.data b.data

/-- Non-strict lexicographic comparison of equal-purpose key lists. -/
def lexLe : List String → List String → Bool
  | [], _ => true
  | _ :: _, [] => false
  | a :: as, b :: bs =>
    if strLtB a b then true
    else if strLtB b a then false
    else lexLe as bs

/-- The composite sort key of `sort_values(by=['continent', 'country',
'region', 'state', 'education institution', 'field of study'])`. -/
def sortKey (r : Record) : List String :=
  [r.continent.getD "", r.country.getD "", r.regionDerived.getD "",
   r.state.getD "", r.educationInstitution.getD "", r.fieldOfStudyDerived.getD ""]

/-- Row ordering used by the sort: ascending on the composite key. -/
def rowLe (r r' : Record) : Prop := lexLe (sortKey r) (sortKey r') = true

instance : DecidableRel rowLe := fun _ _ => instDecidableEqBool _ _

/-! ## The Cleaner pipeline -/

/-- `clean_sort_create_columns`: drop duplicates, drop rows containing
`"Total"`, fill blanks with `"Unknown"`, assign the six derived columns,
and sort by the composite key (a stable sort). -/
def clean_sort_create_columns (t : List Record) : List Record :=
  List.insertionSort rowLe
    (((drop_duplicates t).filter (fun r => !recordHasTotal r)).map
      (fun r => createColumns (fillna r)))

/-! ## The Annotator (`address_geocode_script.py`) -/

/-- The `properties` object of one geocoding `feature`: the `formatted`
key may be absent. -/
structure Props where
  formatted : Option String
deriving DecidableEq

/-- One element of the response's `features` array: the `properties`
object may be absent. -/
structure Feature where
  properties : Option Props
deriving DecidableEq

/-- Outcome of one HTTP lookup, as the script's `try`/`except` blocks
distinguish them: a parsed response with its `features` array (absent key
defaults to `[]`), a `requests.exceptions.RequestException` with its
formatted message, or any other exception with its formatted message. -/
inductive LookupOutcome where
  | success (features : List Feature)
  | requestError (msg : String)
  | otherError (msg : String)
deriving DecidableEq

/-- `get_address_suggestions`: take `features[0].properties.formatted`
(each missing level defaulting towards `'No suggestion'`), or an error
string built from the caught exception. -/
def get_address_suggestions : LookupOutcome → String
  | .success [] => "No suggestion"
  | .success (f :: _) =>
    match f.properties with
    | none => "No suggestion"
    | some p => p.formatted.getD "No suggestion"
  | .requestError e => "Request error: " ++ e
  | .otherError e => "Error: " ++ e

/-- A blank cell renders as `"nan"` inside the f-string. -/
def cellText : Cell → String
  | none => "nan"
  | some s => s

/-- The query `f"{row['Education Institute']}, {row['Country Name']}"`. -/
def addressOf (r : Record) : String :=
  cellText r.educationInstitute ++ ", " ++ cellText r.countryName

/-- The Annotator's main loop over `(index, row)` pairs: a row at index
`≥ 1` is appended to `unprocessed_rows` and skipped; otherwise its address
is looked up and the suggestion appended to `suggestions`.  Returns the
`suggestions` and `unprocessed_rows` lists. -/
def annotateLoop (lookup : String → String) : Nat → List Record → List String × List Record
  | _, [] => ([], [])
  | i, r :: rs =>
    let (sugs, unproc) := annotateLoop lookup (i + 1) rs
    if 1 ≤ i then (sugs, r :: unproc)
    else (lookup (addressOf r) :: sugs, unproc)

/-- The Annotator's two in-memory outputs: `processed_df` is
`df.iloc[:1]` with the `Address Suggestions` column attached (each row
paired with its suggestion string), and `unprocessed_df` is the list of
skipped rows. -/
def annotate (lookup : String → String) (t : List Record) :
    List (Record × String) × List Record :=
  let (sugs, unproc) := annotateLoop lookup 0 t
  ((t.take 1).zip sugs, unproc)

/-! ## The Annotator's save sequence -/

/-- Events recorded by the two save blocks at the end of the script: each
`to_excel` call either succeeds or raises, and a raise is caught and
logged as an error. -/
inductive SaveEvent where
  | processedSaved
  | processedSaveFailed
  | unprocessedSaved
  | unprocessedSaveFailed
deriving DecidableEq

/-- The Annotator's in-memory state when the save sequence starts,
together with the log of save events. -/
structure AnnotatorState where
  processed : List (Record × String)
  unprocessed : List Record
  events : List SaveEvent

/-- First `try` block: save `processed_df`; on failure only log. -/
def saveProcessedStep (ok : Bool) (st : AnnotatorState) : AnnotatorState :=
  { st with events := st.events ++
      [if ok then .processedSaved else .processedSaveFailed] }

/-- Second `try` block: save `unprocessed_df`; on failure only log. -/
def saveUnprocessedStep (ok : Bool) (st : AnnotatorState) : AnnotatorState :=
  { st with events := st.events ++
      [if ok then .unprocessedSaved else .unprocessedSaveFailed] }

/-- The tail of the script: both save blocks run in sequence,
unconditionally — neither block aborts the run. -/
def saveOutputs (okProcessed okUnprocessed : Bool) (st : AnnotatorState) :
    AnnotatorState :=
  saveUnprocessedStep okUnprocessed (saveProcessedStep okProcessed st)

/-! ## Concrete sample rows, used in closed instances of the theorems -/

/-- A row whose `Country Name` cell is blank. -/
def rBlank : Record :=
  { countryName := none, region := some "Europe",
    educationInstitute := some "ENS", fieldOfStudy := some "Math" }

/-- A distinct row that coincides with `rBlank` once blanks are filled:
its `Country Name` cell literally holds the placeholder text. -/
def rUnknown : Record := { rBlank with countryName := some "Unknown" }

/-- A fully populated row with no blank cell and no `"Total"`. -/
def rFull : Record :=
  { countryName := some "Japan", region := some "Asia",
    educationInstitute := some "Todai", fieldOfStudy := some "Physics" }

/-- A row containing the substring `"Total"` in its `Region` cell. -/
def rTot : Record := { rFull with region := some "Grand Total" }

/-! ## Order lemmas for the comparison used by the sort -/

theorem chToNat_inj {a b : Char} (h : a.toNat = b.toNat) : a = b :=
  Char.ext (UInt32.ext h)

theorem chListLt_trans : ∀ {x y z : List Char},
    chListLt x y = true → chListLt y z = true → chListLt x z = true
  | [], [], _, h1, _ => by simp [chListLt] at h1
  | [], _ :: _, [], _, h2 => by simp [chListLt] at h2
  | [], _ :: _, _ :: _, _, _ => by simp [chListLt]
  | _ :: _, [], _, h1, _ => by simp [chListLt] at h1
  | _ :: _, _ :: _, [], _, h2 => by simp [chListLt] at h2
  | a :: as, b :: bs, c :: cs, h1, h2 => by
    simp only [chListLt] at h1 h2 ⊢
    split_ifs at h1 h2 ⊢ <;> try omega
    all_goals try rfl
    all_goals simp_all
    exact chListLt_trans h1 h2

theorem chListLt_eq_of_not : ∀ {x y : List Char},
    chListLt x y = false → chListLt y x = false → x = y
  | [], [], _, _ => rfl
  | [], _ :: _, h1, _ => by simp [chListLt] at h1
  | _ :: _, [], _, h2 => by simp [chListLt] at h2
  | a :: as, b :: bs, h1, h2 => by
    simp only [chListLt] at h1 h2
    split_ifs at h1 h2 <;> try omega
    next hab hba =>
      have hads : a = b := chToNat_inj (by omega)
      have htl : as = bs := chListLt_eq_of_not h1 h2
      simp_all

theorem strLtB_trans {x y z : String} (h1 : strLtB x y = true)
    (h2 : strLtB y z = true) : strLtB x z = true := chListLt_trans h1 h2

theorem strLtB_eq_of_not {x y : String} (h1 : strLtB x y = false)
    (h2 : strLtB y x = false) : x = y := by
  cases x; cases y
  simp only [strLtB] at h1 h2
  exact congrArg String.mk (chListLt_eq_of_not h1 h2)

theorem lexLe_total : ∀ (x y : List String), lexLe x y = true ∨ lexLe y x = true
  | [], _ => Or.inl rfl
  | _ :: _, [] => Or.inr rfl
  | a :: as, b :: bs => by
    simp only [lexLe]
    split_ifs with h1 h2 <;> simp_all
    exact lexLe_total as bs

theorem lexLe_trans : ∀ {x y z : List String},
    lexLe x y = true → lexLe y z = true → lexLe x z = true
  | [], _, _, _, _ => rfl
  | _ :: _, [], _, h1, _ => by simp [lexLe] at h1
  | _ :: _, _ :: _, [], _, h2 => by simp [lexLe] at h2
  | a :: as, b :: bs, c :: cs, h1, h2 => by
    simp only [lexLe] at h1 h2 ⊢
    by_cases hab : strLtB a b = true <;> by_cases hbc : strLtB b c = true
    · have hac := strLtB_trans hab hbc
      simp [hac]
    · have hbc' : strLtB b c = false := by simpa using hbc
      by_cases hcb : strLtB c b = true
      · simp [hbc', hcb] at h2
      · have hcb' : strLtB c b = false := by simpa using hcb
        have hbceq : b = c := strLtB_eq_of_not hbc' hcb'
        subst hbceq
        simp [hab]
    · have hab' : strLtB a b = false := by simpa using hab
      by_cases hba : strLtB b a = true
      · simp [hab', hba] at h1
      · have hba' : strLtB b a = false := by simpa using hba
        have habeq : a = b := strLtB_eq_of_not hab' hba'
        subst habeq
        simp [hbc]
    · have hab' : strLtB a b = false := by simpa using hab
      have hbc' : strLtB b c = false := by simpa using hbc
      by_cases hba : strLtB b a = true
      · simp [hab', hba] at h1
      · have hba' : strLtB b a = false := by simpa using hba
        by_cases hcb : strLtB c b = true
        · simp [hbc', hcb] at h2
        · have hcb' : strLtB c b = false := by simpa using hcb
          have habeq : a = b := strLtB_eq_of_not hab' hba'
          have hbceq : b = c := strLtB_eq_of_not hbc' hcb'
          subst habeq; subst hbceq
          simp [hab'] at h1 h2 ⊢
          exact lexLe_trans h1 h2

instance : IsTotal Record rowLe :=
  ⟨fun r r' => lexLe_total (sortKey r) (sortKey r')⟩

instance : IsTrans Record rowLe :=
  ⟨fun _ _ _ h1 h2 => lexLe_trans h1 h2⟩

/-! ## Structural lemmas about the Cleaner's stages -/

theorem mem_dedupAux {a : Record} : ∀ {seen l : List Record},
    a ∈ dedupAux seen l ↔ a ∈ l ∧ a ∉ seen
  | _, [] => by simp [dedupAux]
  | seen, r :: rs => by
    simp only [dedupAux]
    split_ifs with hmem
    · rw [mem_dedupAux, List.mem_cons]
      constructor
      · rintro ⟨h1, h2⟩
        exact ⟨Or.inr h1, h2⟩
      · rintro ⟨h1 | h1, h2⟩
        · exact absurd (h1 ▸ hmem) h2
        · exact ⟨h1, h2⟩
    · rw [List.mem_cons, mem_dedupAux, List.mem_cons, List.mem_cons]
      constructor
      · rintro (rfl | ⟨h1, h2⟩)
        · exact ⟨Or.inl rfl, hmem⟩
        · exact ⟨Or.inr h1, fun hs => h2 (Or.inr hs)⟩
      · rintro ⟨h1 | h1, h2⟩
        · exact Or.inl h1
        · by_cases har : a = r
          · exact Or.inl har
          · exact Or.inr ⟨h1, fun hs => hs.elim har h2⟩

theorem mem_drop_duplicates {a : Record} {t : List Record} :
    a ∈ drop_duplicates t ↔ a ∈ t := by
  simp [drop_duplicates, mem_dedupAux]

theorem nodup_dedupAux : ∀ {seen l : List Record}, (dedupAux seen l).Nodup
  | _, [] => List.nodup_nil
  | seen, r :: rs => by
    simp only [dedupAux]
    split_ifs with hmem
    · exact nodup_dedupAux
    · refine List.nodup_cons.mpr ⟨fun hr => ?_, nodup_dedupAux⟩
      exact (mem_dedupAux.mp hr).2 (List.mem_cons_self _ _)

theorem nodup_drop_duplicates (t : List Record) : (drop_duplicates t).Nodup :=
  nodup_dedupAux

theorem dedupAux_eq_self : ∀ {seen l : List Record}, l.Nodup →
    (∀ a ∈ l, a ∉ seen) → dedupAux seen l = l
  | _, [], _, _ => rfl
  | seen, r :: rs, hnd, hdisj => by
    simp only [dedupAux, if_neg (hdisj r (List.mem_cons_self _ _))]
    refine congrArg (r :: ·) (dedupAux_eq_self (List.nodup_cons.mp hnd).2 ?_)
    intro a ha hs
    rcases List.mem_cons.mp hs with rfl | hs
    · exact (List.nodup_cons.mp hnd).1 ha
    · exact hdisj a (List.mem_cons_of_mem _ ha) hs

theorem drop_duplicates_eq_self {t : List Record} (h : t.Nodup) :
    drop_duplicates t = t :=
  dedupAux_eq_self h (by simp)

theorem cellHasTotal_fillCell (c : Cell) : cellHasTotal (fillCell c) = cellHasTotal c := by
  cases c <;> rfl

theorem fillCell_fillCell (c : Cell) : fillCell (fillCell c) = fillCell c := by
  cases c <;> rfl

theorem recordHasTotal_createColumns_fillna {r : Record}
    (h : recordHasTotal r = false) :
    recordHasTotal (createColumns (fillna r)) = false := by
  simp only [recordHasTotal, Record.cells, createColumns, fillna, List.any_cons,
    List.any_map, Function.comp, cellHasTotal_fillCell, Bool.or_eq_false_iff] at h ⊢
  have hU : cellHasTotal (some "Unknown") = false := by decide
  simp [h.1, h.2.1, h.2.2.1, h.2.2.2.1, hU]
  have := h.2.2.2.2.2.2.2.2.2.2
  simpa [List.any_eq_false, cellHasTotal_fillCell] using
    fun c hc => by simpa using (List.any_eq_false.mp this) c hc

/-- Every row of the Cleaner's output is the filled, column-assigned image
of a row surviving deduplication and the `"Total"` filter, and conversely. -/
theorem mem_clean_iff {r' : Record} {t : List Record} :
    r' ∈ clean_sort_create_columns t ↔
      ∃ r ∈ (drop_duplicates t).filter (fun r => !recordHasTotal r),
        r' = createColumns (fillna r) := by
  simp only [clean_sort_create_columns, List.mem_insertionSort, List.mem_map]
  constructor
  · rintro ⟨r, hr, rfl⟩
    exact ⟨r, hr, rfl⟩
  · rintro ⟨r, hr, rfl⟩
    exact ⟨r, hr, rfl⟩

theorem map_fillCell_map_fillCell : ∀ (l : List Cell),
    (l.map fillCell).map fillCell = l.map fillCell
  | [] => rfl
  | c :: cs => by
    simp only [List.map_cons, fillCell_fillCell, map_fillCell_map_fillCell cs]

/-- Applying fill-and-assign twice is the same as applying it once. -/
theorem createColumns_fillna_idem (r : Record) :
    createColumns (fillna (createColumns (fillna r))) = createColumns (fillna r) := by
  simp [createColumns, fillna, fillCell_fillCell, map_fillCell_map_fillCell, fillCell]

/-- No row of the Cleaner's output contains the substring `"Total"`. -/
theorem clean_no_total {t : List Record} {r' : Record}
    (h : r' ∈ clean_sort_create_columns t) : recordHasTotal r' = false := by
  obtain ⟨r, hr, rfl⟩ := mem_clean_iff.mp h
  exact recordHasTotal_createColumns_fillna
    (by simpa using (List.mem_filter.mp hr).2)

/-- The Cleaner's output is sorted by the composite key. -/
theorem sorted_clean (t : List Record) :
    List.Sorted rowLe (clean_sort_create_columns t) :=
  List.sorted_insertionSort rowLe _

/-- Every output row is a fixed point of fill-and-assign. -/
theorem clean_fixed_point {t : List Record} {r' : Record}
    (h : r' ∈ clean_sort_create_columns t) :
    createColumns (fillna r') = r' := by
  obtain ⟨r, _, rfl⟩ := mem_clean_iff.mp h
  exact createColumns_fillna_idem r

/-- If the Cleaner's output has no duplicate rows, running the Cleaner on
it changes nothing. -/
theorem clean_idem_of_nodup {t : List Record}
    (h : (clean_sort_create_columns t).Nodup) :
    clean_sort_create_columns (clean_sort_create_columns t) =
      clean_sort_create_columns t := by
  conv_lhs => rw [clean_sort_create_columns]
  rw [drop_duplicates_eq_self h,
    List.filter_eq_self.mpr (fun r hr => by simp [clean_no_total hr]),
    List.map_congr_left (fun r hr => clean_fixed_point hr)]
  simpa using (sorted_clean t).insertionSort_eq

/-! ## Annotator lemmas -/

/-- From index `1` on, the loop only routes rows to `unprocessed_rows`. -/
theorem annotateLoop_of_one_le (lookup : String → String) :
    ∀ (rs : List Record) (i : Nat), 1 ≤ i → annotateLoop lookup i rs = ([], rs)
  | [], _, _ => rfl
  | r :: rs, i, hi => by
    simp only [annotateLoop, annotateLoop_of_one_le lookup rs (i + 1) (by omega),
      if_pos hi]

/-- On a non-empty table the Annotator processes exactly the head row and
routes the whole tail to the unprocessed output. -/
theorem annotate_cons (lookup : String → String) (r : Record) (rs : List Record) :
    annotate lookup (r :: rs) = ([(r, lookup (addressOf r))], rs) := by
  simp [annotate, annotateLoop, annotateLoop_of_one_le lookup rs 1 le_rfl]

/-! ## The claims -/

/-- C1: for a non-empty Annotator input of `N` rows, exactly one row
appears in the processed output and exactly `N − 1` rows in the
unprocessed output; their union (ignoring the added `Address Suggestions`
column) is exactly the original row sequence, and the unprocessed rows are
routed through unmodified (they are the input's tail, in order). -/
theorem annotator_splits_first_row (lookup : String → String) (t : List Record)
    (h : t ≠ []) :
    (annotate lookup t).1.length = 1 ∧
    (annotate lookup t).2.length = t.length - 1 ∧
    (annotate lookup t).1.map Prod.fst ++ (annotate lookup t).2 = t ∧
    (annotate lookup t).2 = t.drop 1 := by
  cases t with
  | nil => exact absurd rfl h
  | cons r rs => simp [annotate_cons]

theorem annotator_splits_first_row_check :
    ([rFull, rBlank, rUnknown] : List Record) ≠ [] ∧
    ((annotate (fun _ => "sug") [rFull, rBlank, rUnknown]).1.length = 1 ∧
     (annotate (fun _ => "sug") [rFull, rBlank, rUnknown]).2.length =
       ([rFull, rBlank, rUnknown] : List Record).length - 1 ∧
     (annotate (fun _ => "sug") [rFull, rBlank, rUnknown]).1.map Prod.fst ++
       (annotate (fun _ => "sug") [rFull, rBlank, rUnknown]).2 =
         [rFull, rBlank, rUnknown] ∧
     (annotate (fun _ => "sug") [rFull, rBlank, rUnknown]).2 =
       ([rFull, rBlank, rUnknown] : List Record).drop 1) :=
  ⟨by decide,
   annotator_splits_first_row (fun _ => "sug") [rFull, rBlank, rUnknown] (by decide)⟩

/-- C2: a non-empty `features` array with `properties.formatted` present
yields that formatted string; an empty array yields `"No suggestion"`; a
network-layer failure yields a string prefixed `"Request error: "`; any
other failure yields a string prefixed `"Error: "`; and a lookup failure
is non-fatal — whatever the outcome, the Annotator still records the
returned string against the processed row and routes the tail onward. -/
theorem suggestion_extraction_cases :
    (∀ (s : String) (fs : List Feature),
      get_address_suggestions
        (.success ({ properties := some { formatted := some s } } :: fs)) = s) ∧
    get_address_suggestions (.success []) = "No suggestion" ∧
    (∀ e : String,
      get_address_suggestions (.requestError e) = "Request error: " ++ e) ∧
    (∀ e : String, get_address_suggestions (.otherError e) = "Error: " ++ e) ∧
    (∀ (resp : String → LookupOutcome) (r : Record) (rs : List Record),
      annotate (fun a => get_address_suggestions (resp a)) (r :: rs) =
        ([(r, get_address_suggestions (resp (addressOf r)))], rs)) :=
  ⟨fun _ _ => rfl, rfl, fun _ => rfl, fun _ => rfl,
   fun resp r rs => annotate_cons (fun a => get_address_suggestions (resp a)) r rs⟩

/-- C3, counterexample: deduplication runs before blank cells are filled,
so two distinct input rows that differ only as "blank" versus the literal
text `"Unknown"` both survive `drop_duplicates` and then collapse to the
same filled row — the output contains that distinct row twice, refuting
the claim on an input that does contain duplicate rows. -/
theorem dedup_outputs_can_repeat :
    ¬ ([rBlank, rBlank, rUnknown] : List Record).Nodup ∧
    ¬ (∀ r ∈ clean_sort_create_columns [rBlank, rBlank, rUnknown],
        (clean_sort_create_columns [rBlank, rBlank, rUnknown]).count r = 1) :=
  ⟨by decide, by decide⟩

/-- C3, amended: for an input with duplicate rows, the Cleaner output
contains each distinct row exactly once **provided** fill-and-derive maps
distinct surviving rows to distinct rows (in particular whenever no
surviving cell literally holds `"Unknown"` opposite a blank); without that
proviso a filled row can occur several times. -/
theorem dedup_distinct_rows_amended (t : List Record) (hdup : ¬ t.Nodup)
    (hinj : ∀ r1 ∈ (drop_duplicates t).filter (fun x => !recordHasTotal x),
      ∀ r2 ∈ (drop_duplicates t).filter (fun x => !recordHasTotal x),
        createColumns (fillna r1) = createColumns (fillna r2) → r1 = r2) :
    ∀ r ∈ clean_sort_create_columns t,
      (clean_sort_create_columns t).count r = 1 := by
  have h1 : ((drop_duplicates t).filter (fun x => !recordHasTotal x)).Nodup :=
    (nodup_drop_duplicates t).filter _
  have h2 := List.Nodup.map_on hinj h1
  have h3 : (clean_sort_create_columns t).Nodup :=
    (List.perm_insertionSort rowLe _).nodup_iff.mpr h2
  exact fun r hr => List.count_eq_one_of_mem h3 hr

theorem dedup_distinct_rows_amended_check :
    ¬ ([rFull, rFull, rBlank] : List Record).Nodup ∧
    (∀ r1 ∈ (drop_duplicates [rFull, rFull, rBlank]).filter
        (fun x => !recordHasTotal x),
      ∀ r2 ∈ (drop_duplicates [rFull, rFull, rBlank]).filter
          (fun x => !recordHasTotal x),
        createColumns (fillna r1) = createColumns (fillna r2) → r1 = r2) ∧
    (∀ r ∈ clean_sort_create_columns [rFull, rFull, rBlank],
      (clean_sort_create_columns [rFull, rFull, rBlank]).count r = 1) :=
  ⟨by decide, by decide,
   dedup_distinct_rows_amended [rFull, rFull, rBlank] (by decide) (by decide)⟩

/-- C4: a row containing the case-sensitive substring `"Total"` in any
field is absent from the Cleaner output (indeed no output row contains it
in any cell), and every deduplicated row not containing it survives the
filter stage. -/
theorem total_rows_filtered (t : List Record) :
    (∀ r : Record, recordHasTotal r = true →
      r ∉ clean_sort_create_columns t) ∧
    (∀ r ∈ clean_sort_create_columns t, recordHasTotal r = false) ∧
    (∀ r ∈ drop_duplicates t, recordHasTotal r = false →
      r ∈ (drop_duplicates t).filter (fun x => !recordHasTotal x)) := by
  refine ⟨fun r htot hmem => ?_, fun r hr => clean_no_total hr,
    fun r hr hnot => List.mem_filter.mpr ⟨hr, by simp [hnot]⟩⟩
  rw [clean_no_total hmem] at htot
  exact Bool.false_ne_true htot

theorem total_rows_filtered_check :
    (recordHasTotal rTot = true ∧
      rTot ∉ clean_sort_create_columns [rFull, rTot]) ∧
    (createColumns (fillna rFull) ∈ clean_sort_create_columns [rFull, rTot] ∧
      recordHasTotal (createColumns (fillna rFull)) = false) ∧
    (rFull ∈ drop_duplicates [rFull, rTot] ∧ recordHasTotal rFull = false ∧
      rFull ∈ (drop_duplicates [rFull, rTot]).filter
        (fun x => !recordHasTotal x)) :=
  ⟨⟨by decide, (total_rows_filtered [rFull, rTot]).1 rTot (by decide)⟩,
   ⟨by decide, (total_rows_filtered [rFull, rTot]).2.1 _ (by decide)⟩,
   ⟨by decide, by decide,
    (total_rows_filtered [rFull, rTot]).2.2 rFull (by decide) (by decide)⟩⟩

/-- C5: for a row surviving deduplication and the `"Total"` filter, its
filled-and-derived image is in the Cleaner output, and every one of its
input cells that was blank — the four named input columns and any extra
column — reads exactly `"Unknown"` in that output row. -/
theorem blank_cells_become_unknown (t : List Record) (r : Record)
    (hr : r ∈ (drop_duplicates t).filter (fun x => !recordHasTotal x)) :
    createColumns (fillna r) ∈ clean_sort_create_columns t ∧
    (r.countryName = none →
      (createColumns (fillna r)).countryName = some "Unknown") ∧
    (r.region = none → (createColumns (fillna r)).region = some "Unknown") ∧
    (r.educationInstitute = none →
      (createColumns (fillna r)).educationInstitute = some "Unknown") ∧
    (r.fieldOfStudy = none →
      (createColumns (fillna r)).fieldOfStudy = some "Unknown") ∧
    (∀ i : Nat, r.extra[i]? = some none →
      (createColumns (fillna r)).extra[i]? = some (some "Unknown")) := by
  refine ⟨mem_clean_iff.mpr ⟨r, hr, rfl⟩, ?_, ?_, ?_, ?_, ?_⟩
  · intro h; simp [createColumns, fillna, h, fillCell]
  · intro h; simp [createColumns, fillna, h, fillCell]
  · intro h; simp [createColumns, fillna, h, fillCell]
  · intro h; simp [createColumns, fillna, h, fillCell]
  · intro i h
    simp [createColumns, fillna, List.getElem?_map, h, fillCell]

theorem blank_cells_become_unknown_check :
    (rBlank ∈ (drop_duplicates [rBlank]).filter (fun x => !recordHasTotal x)) ∧
    createColumns (fillna rBlank) ∈ clean_sort_create_columns [rBlank] ∧
    rBlank.countryName = none ∧
    (createColumns (fillna rBlank)).countryName = some "Unknown" :=
  ⟨by decide,
   (blank_cells_become_unknown [rBlank] rBlank (by decide)).1,
   by decide,
   (blank_cells_become_unknown [rBlank] rBlank (by decide)).2.1 (by decide)⟩

/-- C6: in every Cleaner output row the six derived columns satisfy:
`continent` and `state` are the hard-coded placeholder `"Unknown"`, and
`country`, `region`, `education institution`, `field of study` are
verbatim copies of the row's `Country Name`, `Region`,
`Education Institute`, `Field of Study` columns. -/
theorem derived_columns_assigned (t : List Record) (r' : Record)
    (h : r' ∈ clean_sort_create_columns t) :
    r'.continent = some "Unknown" ∧ r'.state = some "Unknown" ∧
    r'.country = r'.countryName ∧ r'.regionDerived = r'.region ∧
    r'.educationInstitution = r'.educationInstitute ∧
    r'.fieldOfStudyDerived = r'.fieldOfStudy := by
  obtain ⟨r, _, rfl⟩ := mem_clean_iff.mp h
  exact ⟨rfl, rfl, rfl, rfl, rfl, rfl⟩

theorem derived_columns_assigned_check :
    createColumns (fillna rFull) ∈ clean_sort_create_columns [rBlank, rFull] ∧
    ((createColumns (fillna rFull)).continent = some "Unknown" ∧
     (createColumns (fillna rFull)).state = some "Unknown" ∧
     (createColumns (fillna rFull)).country =
       (createColumns (fillna rFull)).countryName ∧
     (createColumns (fillna rFull)).regionDerived =
       (createColumns (fillna rFull)).region ∧
     (createColumns (fillna rFull)).educationInstitution =
       (createColumns (fillna rFull)).educationInstitute ∧
     (createColumns (fillna rFull)).fieldOfStudyDerived =
       (createColumns (fillna rFull)).fieldOfStudy) :=
  ⟨by decide,
   by
    have h := derived_columns_assigned [rBlank, rFull]
      (createColumns (fillna rFull)) (by decide)
    exact ⟨h.1, h.2.1, h.2.2.1, h.2.2.2.1, h.2.2.2.2.1, h.2.2.2.2.2⟩⟩

/-- C7: the Cleaner output is non-decreasing (pairwise, hence also in
adjacent rows) under the ascending lexical ordering induced by the
six-key composite (continent, country, region, state, education
institution, field of study). -/
theorem clean_output_sorted (t : List Record) :
    List.Sorted rowLe (clean_sort_create_columns t) :=
  sorted_clean t

/-- C8, counterexample: the Cleaner is not idempotent.  On a two-row
input whose rows differ only as "blank" versus the literal `"Unknown"`,
the first run outputs the same filled row twice, and the second run's
deduplication removes one of them, so re-running the Cleaner on its own
output changes it. -/
theorem clean_rerun_differs :
    clean_sort_create_columns (clean_sort_create_columns [rBlank, rUnknown]) ≠
      clean_sort_create_columns [rBlank, rUnknown] := by decide

/-- C8, amended: whenever the first run's output has no duplicate rows
(blank-filling did not merge two distinct surviving rows), re-running the
Cleaner on that output reproduces it exactly — same rows, same order,
given the stable sort; in general a second run may drop rows that
blank-filling made identical. -/
theorem clean_rerun_fixed_amended (t : List Record)
    (h : (clean_sort_create_columns t).Nodup) :
    clean_sort_create_columns (clean_sort_create_columns t) =
      clean_sort_create_columns t :=
  clean_idem_of_nodup h

theorem clean_rerun_fixed_amended_check :
    (clean_sort_create_columns [rFull, rBlank]).Nodup ∧
    clean_sort_create_columns (clean_sort_create_columns [rFull, rBlank]) =
      clean_sort_create_columns [rFull, rBlank] :=
  ⟨by decide, clean_rerun_fixed_amended [rFull, rBlank] (by decide)⟩

/-- C9: when saving the processed-rows file fails, the failure is logged
and the run continues: the unprocessed-rows save is still attempted
(exactly one of its success or failure events occurs), and the in-memory
processed and unprocessed results are unchanged. -/
theorem processed_save_failure_nonfatal (okUnproc : Bool) (st : AnnotatorState) :
    (saveOutputs false okUnproc st).processed = st.processed ∧
    (saveOutputs false okUnproc st).unprocessed = st.unprocessed ∧
    SaveEvent.processedSaveFailed ∈ (saveOutputs false okUnproc st).events ∧
    (SaveEvent.unprocessedSaved ∈ (saveOutputs false okUnproc st).events ∨
      SaveEvent.unprocessedSaveFailed ∈ (saveOutputs false okUnproc st).events) := by
  cases okUnproc <;>
    simp [saveOutputs, saveProcessedStep, saveUnprocessedStep]

/-- C10 (implicit): when the `features` array is non-empty but its first
element lacks a `properties` object or a `formatted` key, the missing-key
defaults collapse the malformed response into the no-candidates case: the
Suggestion is the literal `"No suggestion"`, exactly as for an empty
`features` array, and not an error string. -/
theorem malformed_feature_no_suggestion :
    (∀ fs : List Feature,
      get_address_suggestions (.success ({ properties := none } :: fs)) =
        "No suggestion") ∧
    (∀ fs : List Feature,
      get_address_suggestions
        (.success ({ properties := some { formatted := none } } :: fs)) =
          "No suggestion") ∧
    get_address_suggestions (.success []) = "No suggestion" :=
  ⟨fun _ => rfl, fun _ => rfl, rfl⟩
